import Mathlib

/-!
Verification of the audio mixing/playback engine (`src/utils/audioEngine.ts`).

The engine is shallowly embedded: JavaScript numbers are modelled as `ℚ`
(every operation the claims touch — comparison, `+`, `-`, `*`, `Math.max`,
`Math.min`, truncation via `|0` — is exact on the inputs involved), byte
buffers are `List ℕ` (each entry a byte value), and the Web Audio objects
(`AudioBuffer`, `AudioBufferSourceNode`, `OfflineAudioContext`) are records
holding exactly the data the engine reads and writes on them.
-/

/-- An `AudioBuffer`: per-channel planar sample data, a frame count
(`length`) and a sample rate, as produced by `ctx.createBuffer` /
`decodeAudioData`.  `numberOfChannels` is the channel count, `duration` is
`length / sampleRate` (seconds), exactly as the Web Audio API defines them. -/
structure AudioBuffer where
  sampleRate : ℕ
  length : ℕ
  data : List (List ℚ)
  deriving Repr, DecidableEq

def AudioBuffer.numberOfChannels (b : AudioBuffer) : ℕ := b.data.length

def AudioBuffer.duration (b : AudioBuffer) : ℚ := (b.length : ℚ) / (b.sampleRate : ℚ)

/-! ## PCM decoder (`decodeRawPCM`)

`decodeRawPCM` runs `new Int16Array(arrayBuffer)` — which throws a
`RangeError` when the byte length is odd — then
`frameCount = dataInt16.length / numChannels` (a JS float division whose
value is truncated to an integer by the WebIDL `unsigned long` conversion of
`createBuffer`'s `length` argument, i.e. `⌊samples / channels⌋`), then
`ctx.createBuffer(numChannels, frameCount, sampleRate)` — which throws a
`NotSupportedError` when the channel count or the (truncated) frame count is
zero.  The copy loop writes `dataInt16[i*numChannels + channel] / 32768`;
iterations with `i` beyond the truncated frame count write out of bounds of
the `Float32Array`, which JavaScript silently ignores, so the effective
content is the first `frameCount` complete frames. -/

/-- Two bytes, little-endian, as a signed 16-bit integer (`Int16Array`
element). -/
def toInt16 (lo hi : ℕ) : ℤ :=
  let u : ℤ := (lo % 256 : ℕ) + 256 * ((hi % 256 : ℕ) : ℤ)
  if u < 32768 then u else u - 65536

/-- The view `new Int16Array(buffer)` takes of an even-length byte buffer. -/
def toInt16List : List ℕ → List ℤ
  | lo :: hi :: rest => toInt16 lo hi :: toInt16List rest
  | _ => []

def decodeRawPCM (bytes : List ℕ) (sampleRate : ℕ := 24000) (numChannels : ℕ := 1) :
    Except String AudioBuffer :=
  if bytes.length % 2 ≠ 0 then
    .error "RangeError: byte length of Int16Array should be a multiple of 2"
  else
    let dataInt16 := toInt16List bytes
    let frameCount := dataInt16.length / numChannels
    if frameCount = 0 then
      .error "NotSupportedError: createBuffer length must be positive"
    else
      .ok { sampleRate := sampleRate
            length := frameCount
            data := (List.range numChannels).map fun channel =>
              (List.range frameCount).map fun i =>
                ((dataInt16.getD (i * numChannels + channel) 0 : ℤ) : ℚ) / 32768 }

/-! ## WAV sample quantization (`bufferToWave`, data section)

The source line is
`sample = (0.5 + sample < 0 ? sample * 32768 : sample * 32767)|0;`
after `sample = Math.max(-1, Math.min(1, channels[i][pos]))`.  By JavaScript
operator precedence the ternary condition is `(0.5 + sample) < 0`, i.e.
`sample < -0.5`; `|0` truncates toward zero. -/

def clampSample (v : ℚ) : ℚ := max (-1) (min 1 v)

/-- Truncation toward zero, the effect of `|0` on an in-range value. -/
def truncQ (q : ℚ) : ℤ := if 0 ≤ q then ⌊q⌋ else ⌈q⌉

/-- The quantizer the code implements: clamp to `[-1, 1]`, then scale by
`32768` when `0.5 + sample < 0` (i.e. the clamped value is strictly below
`-0.5`) and by `32767` otherwise, truncating toward zero. -/
def quantizeSample (v : ℚ) : ℤ :=
  let s := clampSample v
  truncQ (if (1 / 2 : ℚ) + s < 0 then s * 32768 else s * 32767)

/-- The quantizer as the spec words it (claim C2): clamp, scale *negative*
values by `32768` and non-negative ones by `32767`, truncate toward zero. -/
def specQuantize (v : ℚ) : ℤ :=
  let s := clampSample v
  truncQ (if s < 0 then s * 32768 else s * 32767)

/-- The amended quantizer: clamp, scale values strictly below `-0.5` by
`32768` and values `≥ -0.5` by `32767`, truncate toward zero. -/
def specQuantizeAmended (v : ℚ) : ℤ :=
  let s := clampSample v
  if s < -(1 / 2) then truncQ (s * 32768) else truncQ (s * 32767)

/-! ## WAV byte serialization (`bufferToWave`) -/

/-- `view.setUint16(pos, n, true)`: two bytes, little-endian (higher bits of
an out-of-range value are dropped, as `DataView` does). -/
def uint16LE (n : ℕ) : List ℕ := [n % 256, n / 256 % 256]

/-- `view.setUint32(pos, n, true)`: four bytes, little-endian. -/
def uint32LE (n : ℕ) : List ℕ :=
  [n % 256, n / 256 % 256, n / 65536 % 256, n / 16777216 % 256]

/-- `view.setInt16(pos, z, true)`: the 16-bit two's-complement encoding,
little-endian. -/
def int16LE (z : ℤ) : List ℕ :=
  let u := (z % 65536).toNat
  [u % 256, u / 256 % 256]

/-- `channels[ch][pos]` (out-of-range reads are irrelevant to the claims;
they default to `0` here). -/
def sampleAt (b : AudioBuffer) (ch pos : ℕ) : ℚ := (b.data.getD ch []).getD pos 0

/-- The interleaved data section: for each frame `pos < len`, for each
channel `i`, the quantized sample's two little-endian bytes. -/
def waveData (b : AudioBuffer) (len : ℕ) : List ℕ :=
  (List.range len).flatMap fun pos =>
    (List.range b.numberOfChannels).flatMap fun i =>
      int16LE (quantizeSample (sampleAt b i pos))

/-- `bufferToWave(abuffer, len)`: the 44-byte RIFF/WAVE header followed by
the interleaved 16-bit samples, transcribed write by write from the source
(`setUint32`/`setUint16` advance `pos`; the final header field is written at
`pos = 40` as `length - pos - 4`). -/
def bufferToWave (b : AudioBuffer) (len : ℕ) : List ℕ :=
  let numOfChan := b.numberOfChannels
  let length := len * numOfChan * 2 + 44
  uint32LE 0x46464952 ++
  uint32LE (length - 8) ++
  uint32LE 0x45564157 ++
  uint32LE 0x20746d66 ++
  uint32LE 16 ++
  uint16LE 1 ++
  uint16LE numOfChan ++
  uint32LE b.sampleRate ++
  uint32LE (b.sampleRate * 2 * numOfChan) ++
  uint16LE (numOfChan * 2) ++
  uint16LE 16 ++
  uint32LE 0x61746164 ++
  uint32LE (length - 40 - 4) ++
  waveData b len

/-! ## Live playback (`schedulePlayback` / `stop` / `getCurrentTime`)

The engine's mutable state (`musicSource`, `voiceSource`, `startTime`) is
embedded in a `World` that additionally records every
`AudioBufferSourceNode` ever created (`node`, an id-indexed store) so that
liveness across sessions can be stated.  `curGen` is a ghost counter
identifying which `schedulePlayback` call created each node; the code has no
such counter, it only serves to state session exclusivity.  `disconnect()`
only detaches a node from the gain graph and is not otherwise observable, so
it is not modelled separately from `stop`. -/

/-- The two arguments the engine passes to `AudioBufferSourceNode.start`:
the absolute device time at which the node begins sounding, and the
buffer-internal read position. -/
structure StartCmd where
  startWhen : ℚ
  bufferOffset : ℚ
  deriving Repr, DecidableEq

/-- A created (and immediately started) source node.  `playing` is false
once the node was stopped or finished naturally. -/
structure Node where
  gen : ℕ
  cmd : StartCmd
  playing : Bool
  deriving Repr, DecidableEq

structure World where
  node : ℕ → Option Node
  nextId : ℕ
  musicSource : Option ℕ
  voiceSource : Option ℕ
  startTime : ℚ
  curGen : ℕ

def initialWorld : World :=
  { node := fun _ => none, nextId := 0, musicSource := none, voiceSource := none
    startTime := 0, curGen := 0 }

/-- `node.stop()` on the underlying platform object: halting a node that is
no longer playing is the failure mode `stop()`'s `try`/`catch` guards
against. -/
def Node.stopE (n : Node) : Except String Node :=
  if n.playing then .ok { n with playing := false } else .error "InvalidStateError"

/-- `try { node.stop() } catch(e) {}`: the failure is swallowed and the node
is left as it was (in every case it is not playing afterwards). -/
def tryStopNode (n : Node) : Node :=
  match n.stopE with
  | .ok n' => n'
  | .error _ => n

def updateNode (w : World) (id : ℕ) (n : Node) : World :=
  { w with node := fun j => if j = id then some n else w.node j }

def tryStopAt (w : World) (id : ℕ) : World :=
  match w.node id with
  | some n => updateNode w id (tryStopNode n)
  | none => w

/-- The `if (this.musicSource) { try stop catch; disconnect; null }`
block of `stop()`. -/
def stopMusicRef (w : World) : World :=
  match w.musicSource with
  | some id => { tryStopAt w id with musicSource := none }
  | none => w

/-- The `if (this.voiceSource) { try stop catch; disconnect; null }`
block of `stop()`. -/
def stopVoiceRef (w : World) : World :=
  match w.voiceSource with
  | some id => { tryStopAt w id with voiceSource := none }
  | none => w

/-- `stop()`: for each of the two source fields, if present, stop the node
(swallowing any failure), disconnect it, and null the field. -/
def stopWorld (w : World) : World := stopVoiceRef (stopMusicRef w)

/-- `stopMusicRef` with the underlying fallible `Node.stopE` call and its
`catch` block made explicit. -/
def stopMusicRefE (w : World) : Except String World :=
  match w.musicSource with
  | some id =>
    match w.node id with
    | some n =>
      match n.stopE with
      | .ok n' => .ok { updateNode w id n' with musicSource := none }
      | .error _ => .ok { updateNode w id n with musicSource := none }
    | none => .ok { w with musicSource := none }
  | none => .ok w

/-- `stopVoiceRef` with the underlying fallible `Node.stopE` call and its
`catch` block made explicit. -/
def stopVoiceRefE (w : World) : Except String World :=
  match w.voiceSource with
  | some id =>
    match w.node id with
    | some n =>
      match n.stopE with
      | .ok n' => .ok { updateNode w id n' with voiceSource := none }
      | .error _ => .ok { updateNode w id n with voiceSource := none }
    | none => .ok { w with voiceSource := none }
  | none => .ok w

/-- `stop()` with the underlying fallible `Node.stopE` calls and their
`catch` blocks made explicit, to state that no failure escapes. -/
def stopWorldE (w : World) : Except String World := do
  let w1 ← stopMusicRefE w
  stopVoiceRefE w1

/-- Creation of the music node: `createBufferSource`, buffer/connect,
`start(now, offset)`, and registration as `this.musicSource`. -/
def createMusic (w : World) (cmd : StartCmd) : World :=
  { w with node := fun j => if j = w.nextId then some ⟨w.curGen, cmd, true⟩ else w.node j
           nextId := w.nextId + 1
           musicSource := some w.nextId }

/-- Creation of the voice node, registered as `this.voiceSource`. -/
def createVoice (w : World) (cmd : StartCmd) : World :=
  { w with node := fun j => if j = w.nextId then some ⟨w.curGen, cmd, true⟩ else w.node j
           nextId := w.nextId + 1
           voiceSource := some w.nextId }

/-- The `// Schedule Music` block: `if (musicBuffer)`, and inside it
`if (offset < musicBuffer.duration)`, create the source and
`start(now, offset)`. -/
def scheduleMusic (w : World) (musicBuffer : Option AudioBuffer) (offset now : ℚ) : World :=
  match musicBuffer with
  | some b => if offset < b.duration then createMusic w ⟨now, offset⟩ else w
  | none => w

/-- The `// Schedule Voice` block: `if (voiceBuffer)`, and inside it
`if (offset < voiceEnd)` with `voiceEnd = voiceStartTime + duration`, then
either `start(now + (voiceStartTime - offset), 0)` when
`offset <= voiceStartTime` or `start(now, offset - voiceStartTime)`. -/
def scheduleVoice (w : World) (voiceBuffer : Option AudioBuffer)
    (voiceStartTime offset now : ℚ) : World :=
  match voiceBuffer with
  | some b =>
    if offset < voiceStartTime + b.duration then
      if offset ≤ voiceStartTime then
        createVoice w ⟨now + (voiceStartTime - offset), 0⟩
      else
        createVoice w ⟨now, offset - voiceStartTime⟩
    else w
  | none => w

/-- `schedulePlayback(musicBuffer, voiceBuffer, voiceStartTime, offset)` at
device time `now = ctx.currentTime`: tear down the previous session
(`this.stop()`), anchor `startTime = now - offset`, then run the music and
voice scheduling blocks.  `curGen` is bumped so the nodes of this call carry
a fresh generation. -/
def schedulePlayback (w : World) (musicBuffer voiceBuffer : Option AudioBuffer)
    (voiceStartTime offset now : ℚ) : World :=
  let w0 := stopWorld w
  let w1 := { w0 with startTime := now - offset, curGen := w0.curGen + 1 }
  scheduleVoice (scheduleMusic w1 musicBuffer offset now) voiceBuffer voiceStartTime offset now

/-- `getCurrentTime()` when the device clock reads `t`. -/
def getCurrentTime (w : World) (t : ℚ) : ℚ := t - w.startTime

/-- The start command of the node currently registered as `musicSource`. -/
def World.musicCmd (w : World) : Option StartCmd :=
  w.musicSource.bind fun id => (w.node id).map Node.cmd

/-- The start command of the node currently registered as `voiceSource`. -/
def World.voiceCmd (w : World) : Option StartCmd :=
  w.voiceSource.bind fun id => (w.node id).map Node.cmd

/-- A natural end-of-buffer event on node `id`: the platform marks the node
no longer playing; the engine's fields are untouched. -/
def finishNode (w : World) (id : ℕ) : World :=
  match w.node id with
  | some n => updateNode w id { n with playing := false }
  | none => w

/-- The operations the claims quantify over: `schedulePlayback`, `stop`,
and the platform's natural finish events. -/
inductive EngineOp where
  | schedule (musicBuffer voiceBuffer : Option AudioBuffer) (voiceStartTime offset now : ℚ)
  | stop
  | finish (id : ℕ)

def execOp (w : World) : EngineOp → World
  | .schedule mb vb vst off now => schedulePlayback w mb vb vst off now
  | .stop => stopWorld w
  | .finish id => finishNode w id

def run (w : World) (ops : List EngineOp) : World := ops.foldl execOp w

/-! ## Offline renderer (`renderToBlob`)

`renderToBlob` either throws `Error("Nothing to render")` or constructs an
`OfflineAudioContext(2, duration * 44100, 44100)` and starts each present
source in it — the music buffer with `start(0)` and the voice buffer with
`start(voiceStartTime)`, in both cases with no read-offset and no duration
argument, i.e. the full buffer.  The offline context renders exactly the
configured channel count, frame length and sample rate; what the engine
determines is the configuration and the scheduled sources, which is what the
record below captures. -/

/-- One `offlineCtx.createBufferSource()` + `start` call: the buffer, the
`when` argument, and the (absent, hence `0` / `none`) read-offset and
duration arguments. -/
structure RenderSource where
  buffer : AudioBuffer
  startWhen : ℚ
  readOffset : ℚ
  trimDuration : Option ℚ
  deriving Repr, DecidableEq

/-- The offline rendering graph `renderToBlob` sets up: the
`OfflineAudioContext` constructor arguments and the scheduled sources. -/
structure OfflineRender where
  numberOfChannels : ℕ
  lengthParam : ℚ
  sampleRate : ℕ
  sources : List RenderSource
  deriving Repr, DecidableEq

def renderToBlob (musicBuffer voiceBuffer : Option AudioBuffer)
    (voiceStartTime : ℚ) : Except String OfflineRender :=
  let d0 : ℚ := 0
  let d1 := match musicBuffer with
    | some b => max d0 b.duration
    | none => d0
  let d2 := match voiceBuffer with
    | some b => max d1 (voiceStartTime + b.duration)
    | none => d1
  if d2 = 0 then .error "Nothing to render"
  else
    .ok { numberOfChannels := 2
          lengthParam := d2 * 44100
          sampleRate := 44100
          sources :=
            (match musicBuffer with
              | some b => [⟨b, 0, 0, none⟩]
              | none => []) ++
            (match voiceBuffer with
              | some b => [⟨b, voiceStartTime, 0, none⟩]
              | none => []) }

/-- The contiguous byte segment `[i, i+n)` of a byte list. -/
def seg (l : List ℕ) (i n : ℕ) : List ℕ := (l.drop i).take n

/-- A 5-second mono background buffer (5 frames at 1 Hz), used as a
concrete witness input. -/
def bgFive : AudioBuffer := { sampleRate := 1, length := 5, data := [[0, 0, 0, 0, 0]] }

/-- Every stored node has stopped (or finished) playing. -/
def allStopped (w : World) : Prop := ∀ i n, w.node i = some n → n.playing = false

/-- A node still playing is one of the two registered handles. -/
def liveOnlyReferenced (w : World) : Prop :=
  ∀ i n, w.node i = some n → n.playing = true →
    w.musicSource = some i ∨ w.voiceSource = some i

/-- Registered handles carry the current generation. -/
def refsCurrentGen (w : World) : Prop :=
  ∀ i n, (w.musicSource = some i ∨ w.voiceSource = some i) →
    w.node i = some n → n.gen = w.curGen

/-- Ids at or above `nextId` are unused. -/
def freshStore (w : World) : Prop := ∀ i, w.nextId ≤ i → w.node i = none

def EngineInv (w : World) : Prop := freshStore w ∧ liveOnlyReferenced w ∧ refsCurrentGen w

/-- Any two nodes that are both still playing were created by the same
`schedulePlayback` call: handles of two different sessions never coexist. -/
def sessionExclusive (w : World) : Prop :=
  ∀ i j ni nj, w.node i = some ni → w.node j = some nj →
    ni.playing = true → nj.playing = true → ni.gen = nj.gen

/-! ## Helper lemmas -/

theorem length_flatMap_const {α β : Type} (l : List α) (f : α → List β) (c : ℕ)
    (h : ∀ a ∈ l, (f a).length = c) : (l.flatMap f).length = l.length * c := by
  induction l with
  | nil => simp
  | cons a t ih =>
    rw [List.flatMap_cons, List.length_append, h a (by simp),
      ih fun x hx => h x (by simp [hx]), List.length_cons]
    ring

theorem waveData_length (b : AudioBuffer) (len : ℕ) :
    (waveData b len).length = len * b.numberOfChannels * 2 := by
  unfold waveData
  rw [length_flatMap_const _ _ (b.numberOfChannels * 2) ?_, List.length_range, mul_assoc]
  intro a _
  rw [length_flatMap_const _ _ 2 ?_, List.length_range]
  intro x _
  rfl

/-! ## Claim C2 (corrected) -/

/-- C2 counterexample: at the input `-1/4` the code scales by `32767`
(the ternary condition is `(0.5 + sample) < 0`, which is false at `-1/4`),
producing `-8191`, while the claimed rule — negative values scale by
`32768` — demands `-8192`. -/
theorem quantizeSample_ne_specQuantize_at_neg_quarter :
    quantizeSample (-(1 / 4)) = -8191 ∧ specQuantize (-(1 / 4)) = -8192 ∧
      quantizeSample (-(1 / 4)) ≠ specQuantize (-(1 / 4)) := by
  have h1 : quantizeSample (-(1 / 4)) = -8191 := by
    norm_num [quantizeSample, clampSample, truncQ, Int.ceil_eq_iff]
  have h2 : specQuantize (-(1 / 4)) = -8192 := by
    norm_num [specQuantize, clampSample, truncQ, Int.ceil_eq_iff]
  exact ⟨h1, h2, by rw [h1, h2]; decide⟩

/-- C2 amended: the WAV encoder's per-sample quantization clamps to
`[-1, 1]`, scales values strictly below `-0.5` by `32768` and values at
least `-0.5` by `32767`, truncating toward zero; exactly `-1.0` encodes to
`-32768` and exactly `1.0` to `32767`. -/
theorem quantizeSample_eq_specQuantizeAmended :
    (∀ v : ℚ, quantizeSample v = specQuantizeAmended v) ∧
      quantizeSample (-1) = -32768 ∧ quantizeSample 1 = 32767 := by
  refine ⟨fun v => ?_,
    by norm_num [quantizeSample, clampSample, truncQ, Int.ceil_eq_iff],
    by norm_num [quantizeSample, clampSample, truncQ, Int.floor_eq_iff]⟩
  simp only [quantizeSample, specQuantizeAmended]
  rcases lt_or_ge (clampSample v) (-(1 / 2)) with h | h
  · rw [if_pos (show (1 / 2 : ℚ) + clampSample v < 0 by linarith), if_pos h]
  · rw [if_neg (show ¬((1 / 2 : ℚ) + clampSample v < 0) by push_neg; linarith),
      if_neg (not_lt.mpr h)]

/-! ## Claim C7 (confirmed) -/

set_option maxHeartbeats 2000000 in
/-- C7: for every buffer (with `frameCount = b.length` frames, as
`renderToBlob` passes it), `bufferToWave` outputs exactly
`44 + frameCount * channels * 2` bytes: "RIFF" at 0, total length minus 8 at
4, "WAVE" at 8, "fmt " at 12, the value 16 at 16, format tag 1 at 20, the
channel count at 22, the sample rate at 24, byte rate
`sampleRate * channels * 2` at 28, block align `channels * 2` at 32, the
value 16 at 34, "data" at 36, data length `frameCount * channels * 2` at 40
(all multi-byte fields little-endian), followed by the interleaved 16-bit
little-endian samples. -/
theorem bufferToWave_layout (b : AudioBuffer) :
    (bufferToWave b b.length).length = 44 + b.length * b.numberOfChannels * 2 ∧
    seg (bufferToWave b b.length) 0 4 = [0x52, 0x49, 0x46, 0x46] ∧
    seg (bufferToWave b b.length) 4 4
      = uint32LE (44 + b.length * b.numberOfChannels * 2 - 8) ∧
    seg (bufferToWave b b.length) 8 4 = [0x57, 0x41, 0x56, 0x45] ∧
    seg (bufferToWave b b.length) 12 4 = [0x66, 0x6d, 0x74, 0x20] ∧
    seg (bufferToWave b b.length) 16 4 = uint32LE 16 ∧
    seg (bufferToWave b b.length) 20 2 = uint16LE 1 ∧
    seg (bufferToWave b b.length) 22 2 = uint16LE b.numberOfChannels ∧
    seg (bufferToWave b b.length) 24 4 = uint32LE b.sampleRate ∧
    seg (bufferToWave b b.length) 28 4
      = uint32LE (b.sampleRate * b.numberOfChannels * 2) ∧
    seg (bufferToWave b b.length) 32 2 = uint16LE (b.numberOfChannels * 2) ∧
    seg (bufferToWave b b.length) 34 2 = uint16LE 16 ∧
    seg (bufferToWave b b.length) 36 4 = [0x64, 0x61, 0x74, 0x61] ∧
    seg (bufferToWave b b.length) 40 4
      = uint32LE (b.length * b.numberOfChannels * 2) ∧
    (bufferToWave b b.length).drop 44 = waveData b b.length := by
  have hlen : (bufferToWave b b.length).length
      = 44 + b.length * b.numberOfChannels * 2 := by
    simp [bufferToWave, uint32LE, uint16LE, List.length_append, waveData_length]
    omega
  have h4 : seg (bufferToWave b b.length) 4 4
      = uint32LE (44 + b.length * b.numberOfChannels * 2 - 8) := by
    have h : 44 + b.length * b.numberOfChannels * 2 - 8
        = b.length * b.numberOfChannels * 2 + 44 - 8 := by omega
    rw [h]
    rfl
  have h28 : seg (bufferToWave b b.length) 28 4
      = uint32LE (b.sampleRate * b.numberOfChannels * 2) := by
    have h : b.sampleRate * b.numberOfChannels * 2
        = b.sampleRate * 2 * b.numberOfChannels := by ring
    rw [h]
    rfl
  have h40 : seg (bufferToWave b b.length) 40 4
      = uint32LE (b.length * b.numberOfChannels * 2) := by
    have h : b.length * b.numberOfChannels * 2
        = b.length * b.numberOfChannels * 2 + 44 - 40 - 4 := by omega
    rw [h]
    rfl
  exact ⟨hlen, rfl, h4, rfl, rfl, rfl, rfl, rfl, rfl, h28, rfl, rfl, rfl, h40, rfl⟩

/-! ## Projection lemmas for the scheduling model -/

theorem tryStopNode_playing (n : Node) : (tryStopNode n).playing = false := by
  unfold tryStopNode Node.stopE
  cases hp : n.playing <;> simp [hp]

theorem tryStopNode_gen (n : Node) : (tryStopNode n).gen = n.gen := by
  unfold tryStopNode Node.stopE
  cases hp : n.playing <;> simp [hp]

theorem updateNode_node (w : World) (id : ℕ) (n : Node) (j : ℕ) :
    (updateNode w id n).node j = if j = id then some n else w.node j := rfl

@[simp] theorem tryStopAt_musicSource (w : World) (id : ℕ) :
    (tryStopAt w id).musicSource = w.musicSource := by
  unfold tryStopAt
  split <;> rfl

@[simp] theorem tryStopAt_voiceSource (w : World) (id : ℕ) :
    (tryStopAt w id).voiceSource = w.voiceSource := by
  unfold tryStopAt
  split <;> rfl

@[simp] theorem tryStopAt_nextId (w : World) (id : ℕ) :
    (tryStopAt w id).nextId = w.nextId := by
  unfold tryStopAt
  split <;> rfl

@[simp] theorem tryStopAt_curGen (w : World) (id : ℕ) :
    (tryStopAt w id).curGen = w.curGen := by
  unfold tryStopAt
  split <;> rfl

@[simp] theorem tryStopAt_startTime (w : World) (id : ℕ) :
    (tryStopAt w id).startTime = w.startTime := by
  unfold tryStopAt
  split <;> rfl

@[simp] theorem stopMusicRef_musicSource (w : World) :
    (stopMusicRef w).musicSource = none := by
  unfold stopMusicRef
  split
  · rfl
  · assumption

@[simp] theorem stopMusicRef_voiceSource (w : World) :
    (stopMusicRef w).voiceSource = w.voiceSource := by
  unfold stopMusicRef
  split <;> simp

@[simp] theorem stopMusicRef_nextId (w : World) :
    (stopMusicRef w).nextId = w.nextId := by
  unfold stopMusicRef
  split <;> simp

@[simp] theorem stopMusicRef_curGen (w : World) :
    (stopMusicRef w).curGen = w.curGen := by
  unfold stopMusicRef
  split <;> simp

@[simp] theorem stopMusicRef_startTime (w : World) :
    (stopMusicRef w).startTime = w.startTime := by
  unfold stopMusicRef
  split <;> simp

@[simp] theorem stopVoiceRef_voiceSource (w : World) :
    (stopVoiceRef w).voiceSource = none := by
  unfold stopVoiceRef
  split
  · rfl
  · assumption

@[simp] theorem stopVoiceRef_musicSource (w : World) :
    (stopVoiceRef w).musicSource = w.musicSource := by
  unfold stopVoiceRef
  split <;> simp

@[simp] theorem stopVoiceRef_nextId (w : World) :
    (stopVoiceRef w).nextId = w.nextId := by
  unfold stopVoiceRef
  split <;> simp

@[simp] theorem stopVoiceRef_curGen (w : World) :
    (stopVoiceRef w).curGen = w.curGen := by
  unfold stopVoiceRef
  split <;> simp

@[simp] theorem stopVoiceRef_startTime (w : World) :
    (stopVoiceRef w).startTime = w.startTime := by
  unfold stopVoiceRef
  split <;> simp

@[simp] theorem stopWorld_musicSource (w : World) :
    (stopWorld w).musicSource = none := by
  unfold stopWorld
  simp

@[simp] theorem stopWorld_voiceSource (w : World) :
    (stopWorld w).voiceSource = none := by
  unfold stopWorld
  simp

@[simp] theorem stopWorld_nextId (w : World) : (stopWorld w).nextId = w.nextId := by
  unfold stopWorld
  simp

@[simp] theorem stopWorld_curGen (w : World) : (stopWorld w).curGen = w.curGen := by
  unfold stopWorld
  simp

@[simp] theorem createMusic_voiceSource (w : World) (c : StartCmd) :
    (createMusic w c).voiceSource = w.voiceSource := rfl

@[simp] theorem createMusic_musicSource (w : World) (c : StartCmd) :
    (createMusic w c).musicSource = some w.nextId := rfl

@[simp] theorem createMusic_startTime (w : World) (c : StartCmd) :
    (createMusic w c).startTime = w.startTime := rfl

@[simp] theorem createVoice_musicSource (w : World) (c : StartCmd) :
    (createVoice w c).musicSource = w.musicSource := rfl

@[simp] theorem createVoice_startTime (w : World) (c : StartCmd) :
    (createVoice w c).startTime = w.startTime := rfl

theorem createMusic_node (w : World) (c : StartCmd) (j : ℕ) :
    (createMusic w c).node j
      = if j = w.nextId then some ⟨w.curGen, c, true⟩ else w.node j := rfl

theorem createVoice_node (w : World) (c : StartCmd) (j : ℕ) :
    (createVoice w c).node j
      = if j = w.nextId then some ⟨w.curGen, c, true⟩ else w.node j := rfl

theorem musicCmd_createMusic (w : World) (c : StartCmd) :
    (createMusic w c).musicCmd = some c := by
  simp [World.musicCmd, createMusic]

theorem voiceCmd_createVoice (w : World) (c : StartCmd) :
    (createVoice w c).voiceCmd = some c := by
  simp [World.voiceCmd, createVoice]

theorem musicCmd_createVoice (w : World) (c : StartCmd)
    (h : w.musicSource ≠ some w.nextId) :
    (createVoice w c).musicCmd = w.musicCmd := by
  unfold World.musicCmd createVoice
  rcases hm : w.musicSource with _ | id
  · rfl
  · have hid : id ≠ w.nextId := by
      intro he
      exact h (by rw [hm, he])
    simp [hid]

@[simp] theorem scheduleMusic_voiceSource (w : World) (mb : Option AudioBuffer)
    (off now : ℚ) : (scheduleMusic w mb off now).voiceSource = w.voiceSource := by
  unfold scheduleMusic
  split
  · split <;> simp
  · rfl

@[simp] theorem scheduleMusic_startTime (w : World) (mb : Option AudioBuffer)
    (off now : ℚ) : (scheduleMusic w mb off now).startTime = w.startTime := by
  unfold scheduleMusic
  split
  · split <;> simp
  · rfl

@[simp] theorem scheduleVoice_startTime (w : World) (vb : Option AudioBuffer)
    (vst off now : ℚ) : (scheduleVoice w vb vst off now).startTime = w.startTime := by
  unfold scheduleVoice
  split
  · split
    · split <;> simp
    · rfl
  · rfl

/-! ## Scheduling block lemmas -/

theorem scheduleVoice_voiceCmd (w : World) (b : AudioBuffer) (vst off now : ℚ)
    (h : w.voiceSource = none) :
    (scheduleVoice w (some b) vst off now).voiceCmd =
      if off < vst + b.duration then
        if off ≤ vst then some ⟨now + (vst - off), 0⟩ else some ⟨now, off - vst⟩
      else none := by
  unfold scheduleVoice
  by_cases h1 : off < vst + b.duration
  · by_cases h2 : off ≤ vst
    · simp [h1, h2, voiceCmd_createVoice]
    · simp [h1, h2, voiceCmd_createVoice]
  · simp [h1, World.voiceCmd, h]

theorem scheduleMusic_musicCmd (w : World) (b : AudioBuffer) (off now : ℚ)
    (h : w.musicSource = none) :
    (scheduleMusic w (some b) off now).musicCmd =
      if off < b.duration then some ⟨now, off⟩ else none := by
  unfold scheduleMusic
  by_cases h1 : off < b.duration
  · simp [h1, musicCmd_createMusic]
  · simp [h1, World.musicCmd, h]

theorem scheduleVoice_musicCmd (w : World) (vb : Option AudioBuffer)
    (vst off now : ℚ) (h : w.musicSource ≠ some w.nextId) :
    (scheduleVoice w vb vst off now).musicCmd = w.musicCmd := by
  unfold scheduleVoice
  split
  · split
    · split
      · exact musicCmd_createVoice _ _ h
      · exact musicCmd_createVoice _ _ h
    · rfl
  · rfl

theorem scheduleMusic_ref_ne (w : World) (mb : Option AudioBuffer) (off now : ℚ)
    (h : w.musicSource = none) :
    (scheduleMusic w mb off now).musicSource
      ≠ some (scheduleMusic w mb off now).nextId := by
  unfold scheduleMusic
  split
  · split
    · simp only [createMusic_musicSource]
      intro he
      simp only [Option.some.injEq] at he
      have : (createMusic w ⟨now, off⟩).nextId = w.nextId + 1 := rfl
      omega
    · simp [h]
  · simp [h]

/-! ## Claim C1 (confirmed) -/

/-- C1: for every non-null voice buffer, `schedulePlayback` registers a
voice handle iff `offset < voiceStartTime + voiceDuration`; when
`offset ≤ voiceStartTime` the handle is started at device time
`now + (voiceStartTime - offset)` (a delay of exactly
`voiceStartTime - offset`) from buffer position `0`, and when
`voiceStartTime < offset < voiceStartTime + voiceDuration` it is started at
`now` (immediately) from buffer position `offset - voiceStartTime`. -/
theorem schedulePlayback_voice_rule (w : World) (mb : Option AudioBuffer)
    (b : AudioBuffer) (vst off now : ℚ) :
    (schedulePlayback w mb (some b) vst off now).voiceCmd =
      if off < vst + b.duration then
        if off ≤ vst then some ⟨now + (vst - off), 0⟩ else some ⟨now, off - vst⟩
      else none := by
  unfold schedulePlayback
  apply scheduleVoice_voiceCmd
  simp

/-! ## Claim C3 (confirmed) -/

/-- C3: for every non-null background buffer, `schedulePlayback` registers
a background handle iff `offset < backgroundDuration`; when created it is
started at device time `now` (immediately) from buffer position `offset`;
when the background's entire duration lies at or before `offset` nothing is
created at all — the node store is exactly the one left by the teardown of
the previous session, so the source is never started-then-stopped. -/
theorem schedulePlayback_background_rule (w : World) (b : AudioBuffer)
    (vb : Option AudioBuffer) (vst off now : ℚ) :
    ((schedulePlayback w (some b) vb vst off now).musicCmd
      = if off < b.duration then some ⟨now, off⟩ else none) ∧
    (b.duration ≤ off →
      (schedulePlayback w (some b) none vst off now).node = (stopWorld w).node) := by
  constructor
  · unfold schedulePlayback
    rw [scheduleVoice_musicCmd _ _ _ _ _ (scheduleMusic_ref_ne _ _ _ _ (by simp)),
      scheduleMusic_musicCmd _ _ _ _ (by simp)]
  · intro h
    have hn : ¬ (off < b.duration) := not_lt.mpr h
    simp [schedulePlayback, scheduleMusic, scheduleVoice, hn]

/-- C3 witness: with a 5-second background (`bgFive`), an offset of `6`
(past the end) registers no background handle and creates no node. -/
theorem schedulePlayback_background_rule_witness :
    bgFive.duration ≤ 6 ∧
      (schedulePlayback initialWorld (some bgFive) none 0 6 100).node
        = (stopWorld initialWorld).node := by
  have h : bgFive.duration ≤ 6 := by norm_num [AudioBuffer.duration, bgFive]
  exact ⟨h, (schedulePlayback_background_rule initialWorld bgFive none 0 6 100).2 h⟩

/-! ## Claim C10 (confirmed) -/

/-- C10: every `schedulePlayback` call — including one with both buffers
null, which creates no handle — overwrites the anchor with
`now - offset`, and `getCurrentTime` at a later device time `t` then
reports `offset + (t - now)`, the offset plus the elapsed time since the
call. -/
theorem schedulePlayback_anchor_rule (w : World) (mb vb : Option AudioBuffer)
    (vst off now t : ℚ) :
    ((schedulePlayback w mb vb vst off now).startTime = now - off) ∧
    (getCurrentTime (schedulePlayback w mb vb vst off now) t = off + (t - now)) ∧
    ((schedulePlayback w none none vst off now).musicSource = none) ∧
    ((schedulePlayback w none none vst off now).voiceSource = none) := by
  have hst : (schedulePlayback w mb vb vst off now).startTime = now - off := by
    unfold schedulePlayback
    simp
  refine ⟨hst, ?_, ?_, ?_⟩
  · unfold getCurrentTime
    rw [hst]
    ring
  · simp [schedulePlayback, scheduleMusic, scheduleVoice]
  · simp [schedulePlayback, scheduleMusic, scheduleVoice]

/-! ## Claim C9 (confirmed): `stop()` never fails -/

theorem stopMusicRefE_ok (w : World) : stopMusicRefE w = .ok (stopMusicRef w) := by
  rcases hm : w.musicSource with _ | id
  · simp [stopMusicRefE, stopMusicRef, hm]
  · rcases hn : w.node id with _ | n
    · simp [stopMusicRefE, stopMusicRef, tryStopAt, hm, hn]
    · rcases hs : n.stopE with e | n' <;>
        simp [stopMusicRefE, stopMusicRef, tryStopAt, tryStopNode, hm, hn, hs]

theorem stopVoiceRefE_ok (w : World) : stopVoiceRefE w = .ok (stopVoiceRef w) := by
  rcases hm : w.voiceSource with _ | id
  · simp [stopVoiceRefE, stopVoiceRef, hm]
  · rcases hn : w.node id with _ | n
    · simp [stopVoiceRefE, stopVoiceRef, tryStopAt, hm, hn]
    · rcases hs : n.stopE with e | n' <;>
        simp [stopVoiceRefE, stopVoiceRef, tryStopAt, tryStopNode, hm, hn, hs]

/-- C9: `stop()` never raises an observable failure in any engine state:
the underlying platform `stop` on a node that is no longer playing does
fail, but the `try`/`catch` swallows it, so the composed operation always
returns normally, and afterwards both active-handle fields are `none`. -/
theorem stop_never_fails (w : World) :
    stopWorldE w = .ok (stopWorld w) ∧
    (stopWorld w).musicSource = none ∧
    (stopWorld w).voiceSource = none ∧
    Node.stopE ⟨0, ⟨0, 0⟩, false⟩ = .error "InvalidStateError" := by
  refine ⟨?_, stopWorld_musicSource w, stopWorld_voiceSource w, rfl⟩
  show (stopMusicRefE w).bind stopVoiceRefE = _
  rw [stopMusicRefE_ok]
  exact stopVoiceRefE_ok _

/-! ## Claim C8: session exclusivity

The invariant `Inv` is established for every world reachable from
`initialWorld` by any sequence of `schedulePlayback` / `stop` / natural
finish events; `sessionExclusive` (any two nodes still playing carry the
same generation, i.e. were created by the same `schedulePlayback` call)
follows from it. -/

theorem tryStopNode_of_not_playing (n : Node) (h : n.playing = false) :
    tryStopNode n = n := by
  unfold tryStopNode Node.stopE
  rw [h]
  rfl

theorem tryStopAt_node_eq (w : World) (id j : ℕ) (h : j ≠ id) :
    (tryStopAt w id).node j = w.node j := by
  unfold tryStopAt updateNode
  split
  · simp [h]
  · rfl

theorem tryStopAt_node_self (w : World) (id : ℕ) (n : Node)
    (h : w.node id = some n) :
    (tryStopAt w id).node id = some (tryStopNode n) := by
  unfold tryStopAt updateNode
  rw [h]
  simp

theorem tryStopAt_node_self_none (w : World) (id : ℕ) (h : w.node id = none) :
    (tryStopAt w id).node id = none := by
  unfold tryStopAt
  rw [h]
  exact h

theorem tryStopAt_node_cases (w : World) (id j : ℕ) :
    (tryStopAt w id).node j = w.node j ∨
    ∃ n, w.node j = some n ∧ (tryStopAt w id).node j = some (tryStopNode n) := by
  by_cases hj : j = id
  · subst hj
    rcases hn : w.node j with _ | n
    · left
      rw [tryStopAt_node_self_none w j hn]
    · right
      exact ⟨n, rfl, tryStopAt_node_self w j n hn⟩
  · left
    exact tryStopAt_node_eq w id j hj

theorem stopMusicRef_node_ne (w : World) (j : ℕ) (h : w.musicSource ≠ some j) :
    (stopMusicRef w).node j = w.node j := by
  unfold stopMusicRef
  rcases hm : w.musicSource with _ | id
  · rfl
  · have hj : j ≠ id := fun he => h (by rw [hm, he])
    exact tryStopAt_node_eq w id j hj

theorem stopVoiceRef_node_ne (w : World) (j : ℕ) (h : w.voiceSource ≠ some j) :
    (stopVoiceRef w).node j = w.node j := by
  unfold stopVoiceRef
  rcases hm : w.voiceSource with _ | id
  · rfl
  · have hj : j ≠ id := fun he => h (by rw [hm, he])
    exact tryStopAt_node_eq w id j hj

theorem stopMusicRef_node_stopped (w : World) (id : ℕ)
    (hm : w.musicSource = some id) :
    ∀ n, (stopMusicRef w).node id = some n → n.playing = false := by
  intro n hn
  simp only [stopMusicRef, hm] at hn
  rcases hnode : w.node id with _ | m
  · rw [tryStopAt_node_self_none w id hnode] at hn
    cases hn
  · rw [tryStopAt_node_self w id m hnode] at hn
    injection hn with h2
    rw [← h2]
    exact tryStopNode_playing m

theorem stopVoiceRef_node_stopped (w : World) (id : ℕ)
    (hv : w.voiceSource = some id) :
    ∀ n, (stopVoiceRef w).node id = some n → n.playing = false := by
  intro n hn
  simp only [stopVoiceRef, hv] at hn
  rcases hnode : w.node id with _ | m
  · rw [tryStopAt_node_self_none w id hnode] at hn
    cases hn
  · rw [tryStopAt_node_self w id m hnode] at hn
    injection hn with h2
    rw [← h2]
    exact tryStopNode_playing m

theorem stopMusicRef_node_cases (w : World) (j : ℕ) :
    (stopMusicRef w).node j = w.node j ∨
    ∃ n, w.node j = some n ∧ (stopMusicRef w).node j = some (tryStopNode n) := by
  unfold stopMusicRef
  rcases hm : w.musicSource with _ | id
  · left
    rfl
  · exact tryStopAt_node_cases w id j

theorem stopVoiceRef_node_cases (w : World) (j : ℕ) :
    (stopVoiceRef w).node j = w.node j ∨
    ∃ n, w.node j = some n ∧ (stopVoiceRef w).node j = some (tryStopNode n) := by
  unfold stopVoiceRef
  rcases hm : w.voiceSource with _ | id
  · left
    rfl
  · exact tryStopAt_node_cases w id j

theorem stopWorld_node_cases (w : World) (j : ℕ) :
    (stopWorld w).node j = w.node j ∨
    ∃ n, w.node j = some n ∧ (stopWorld w).node j = some (tryStopNode n) := by
  unfold stopWorld
  rcases stopVoiceRef_node_cases (stopMusicRef w) j with h | ⟨n, hn, h⟩
  · rcases stopMusicRef_node_cases w j with h2 | ⟨m, hm2, h2⟩
    · left
      rw [h, h2]
    · right
      exact ⟨m, hm2, by rw [h, h2]⟩
  · rcases stopMusicRef_node_cases w j with h2 | ⟨m, hm2, h2⟩
    · right
      rw [h2] at hn
      exact ⟨n, hn, h⟩
    · right
      rw [h2] at hn
      injection hn with hn2
      refine ⟨m, hm2, ?_⟩
      rw [h, ← hn2, tryStopNode_of_not_playing _ (tryStopNode_playing m)]

theorem stopWorld_allStopped (w : World) (hl : liveOnlyReferenced w) :
    allStopped (stopWorld w) := by
  intro i n hn
  by_cases hv : w.voiceSource = some i
  · exact stopVoiceRef_node_stopped (stopMusicRef w) i
      (by rw [stopMusicRef_voiceSource]; exact hv) n hn
  · have h1 : (stopWorld w).node i = (stopMusicRef w).node i :=
      stopVoiceRef_node_ne (stopMusicRef w) i
        (by rw [stopMusicRef_voiceSource]; exact hv)
    rw [h1] at hn
    by_cases hm : w.musicSource = some i
    · exact stopMusicRef_node_stopped w i hm n hn
    · rw [stopMusicRef_node_ne w i hm] at hn
      cases hp : n.playing
      · rfl
      · rcases hl i n hn hp with h | h
        · exact absurd h hm
        · exact absurd h hv

theorem stopWorld_freshStore (w : World) (hf : freshStore w) :
    freshStore (stopWorld w) := by
  intro i hi
  rw [stopWorld_nextId] at hi
  rcases stopWorld_node_cases w i with h | ⟨n, hn, _⟩
  · rw [h]
    exact hf i hi
  · rw [hf i hi] at hn
    cases hn

theorem EngineInv_stopWorld (w : World) (hInv : EngineInv w) : EngineInv (stopWorld w) := by
  obtain ⟨hf, hl, _⟩ := hInv
  refine ⟨stopWorld_freshStore w hf, ?_, ?_⟩
  · intro i n hn hp
    rw [stopWorld_allStopped w hl i n hn] at hp
    cases hp
  · intro i n href _
    rcases href with h | h
    · rw [stopWorld_musicSource] at h
      cases h
    · rw [stopWorld_voiceSource] at h
      cases h

theorem EngineInv_createMusic (w : World) (c : StartCmd) (hInv : EngineInv w)
    (hm : w.musicSource = none) : EngineInv (createMusic w c) := by
  obtain ⟨hf, hl, hr⟩ := hInv
  refine ⟨?_, ?_, ?_⟩
  · intro i hi
    have hi' : w.nextId + 1 ≤ i := hi
    rw [createMusic_node, if_neg (by omega)]
    exact hf i (by omega)
  · intro i n hn hp
    rw [createMusic_node] at hn
    by_cases hi : i = w.nextId
    · left
      rw [hi]
      rfl
    · rw [if_neg hi] at hn
      rcases hl i n hn hp with h | h
      · rw [hm] at h
        cases h
      · right
        rw [createMusic_voiceSource]
        exact h
  · intro i n href hn
    rw [createMusic_node] at hn
    by_cases hi : i = w.nextId
    · rw [hi, if_pos rfl] at hn
      injection hn with he
      rw [← he]
      rfl
    · rw [if_neg hi] at hn
      rcases href with h | h
      · rw [createMusic_musicSource] at h
        injection h with h2
        exact absurd h2.symm hi
      · rw [createMusic_voiceSource] at h
        exact hr i n (Or.inr h) hn

theorem EngineInv_createVoice (w : World) (c : StartCmd) (hInv : EngineInv w)
    (hv : w.voiceSource = none) : EngineInv (createVoice w c) := by
  obtain ⟨hf, hl, hr⟩ := hInv
  refine ⟨?_, ?_, ?_⟩
  · intro i hi
    have hi' : w.nextId + 1 ≤ i := hi
    rw [createVoice_node, if_neg (by omega)]
    exact hf i (by omega)
  · intro i n hn hp
    rw [createVoice_node] at hn
    by_cases hi : i = w.nextId
    · right
      rw [hi]
      rfl
    · rw [if_neg hi] at hn
      rcases hl i n hn hp with h | h
      · left
        rw [createVoice_musicSource]
        exact h
      · rw [hv] at h
        cases h
  · intro i n href hn
    rw [createVoice_node] at hn
    by_cases hi : i = w.nextId
    · rw [hi, if_pos rfl] at hn
      injection hn with he
      rw [← he]
      rfl
    · rw [if_neg hi] at hn
      rcases href with h | h
      · rw [createVoice_musicSource] at h
        exact hr i n (Or.inl h) hn
      · have h2 : w.voiceSource = some i ∨ some w.nextId = some i := by
          right
          rw [← h]
          rfl
        rcases h2 with h3 | h3
        · exact hr i n (Or.inr h3) hn
        · injection h3 with h4
          exact absurd h4.symm hi

theorem EngineInv_scheduleMusic (w : World) (mb : Option AudioBuffer)
    (off now : ℚ) (hInv : EngineInv w) (hm : w.musicSource = none) :
    EngineInv (scheduleMusic w mb off now) := by
  unfold scheduleMusic
  split
  · split
    · exact EngineInv_createMusic _ _ hInv hm
    · exact hInv
  · exact hInv

theorem EngineInv_scheduleVoice (w : World) (vb : Option AudioBuffer)
    (vst off now : ℚ) (hInv : EngineInv w) (hv : w.voiceSource = none) :
    EngineInv (scheduleVoice w vb vst off now) := by
  unfold scheduleVoice
  split
  · split
    · split
      · exact EngineInv_createVoice _ _ hInv hv
      · exact EngineInv_createVoice _ _ hInv hv
    · exact hInv
  · exact hInv

theorem EngineInv_schedulePlayback (w : World) (mb vb : Option AudioBuffer)
    (vst off now : ℚ) (hInv : EngineInv w) :
    EngineInv (schedulePlayback w mb vb vst off now) := by
  obtain ⟨hf, hl, _⟩ := hInv
  have hstop := stopWorld_allStopped w hl
  have h1 : EngineInv
      { stopWorld w with startTime := now - off, curGen := (stopWorld w).curGen + 1 } := by
    refine ⟨?_, ?_, ?_⟩
    · intro i hi
      exact stopWorld_freshStore w hf i hi
    · intro i n hn hp
      rw [hstop i n hn] at hp
      cases hp
    · intro i n href _
      rcases href with h | h
      · have h2 : (stopWorld w).musicSource = some i := h
        rw [stopWorld_musicSource] at h2
        cases h2
      · have h2 : (stopWorld w).voiceSource = some i := h
        rw [stopWorld_voiceSource] at h2
        cases h2
  unfold schedulePlayback
  apply EngineInv_scheduleVoice
  · apply EngineInv_scheduleMusic
    · exact h1
    · simp
  · simp

theorem EngineInv_finishNode (w : World) (id : ℕ) (hInv : EngineInv w) :
    EngineInv (finishNode w id) := by
  obtain ⟨hf, hl, hr⟩ := hInv
  unfold finishNode
  rcases hn : w.node id with _ | n
  · exact ⟨hf, hl, hr⟩
  · refine ⟨?_, ?_, ?_⟩
    · intro i hi
      have hi' : w.nextId ≤ i := hi
      rw [updateNode_node]
      by_cases hid : i = id
      · subst hid
        rw [hf i hi'] at hn
        cases hn
      · rw [if_neg hid]
        exact hf i hi'
    · intro i m hm hp
      rw [updateNode_node] at hm
      by_cases hid : i = id
      · rw [if_pos hid] at hm
        injection hm with he
        rw [← he] at hp
        cases hp
      · rw [if_neg hid] at hm
        exact hl i m hm hp
    · intro i m href hm
      rw [updateNode_node] at hm
      by_cases hid : i = id
      · rw [if_pos hid] at hm
        injection hm with he
        subst hid
        have := hr i n href hn
        rw [← he]
        exact this
      · rw [if_neg hid] at hm
        exact hr i m href hm

theorem EngineInv_initial : EngineInv initialWorld := by
  refine ⟨fun i _ => rfl, fun i n hn => ?_, fun i n href => ?_⟩
  · cases hn
  · rcases href with h | h <;> cases h

theorem EngineInv_execOp (w : World) (op : EngineOp) (hInv : EngineInv w) :
    EngineInv (execOp w op) := by
  cases op with
  | schedule mb vb vst off now => exact EngineInv_schedulePlayback w mb vb vst off now hInv
  | stop => exact EngineInv_stopWorld w hInv
  | finish id => exact EngineInv_finishNode w id hInv

theorem EngineInv_run (ops : List EngineOp) (w : World) (hInv : EngineInv w) :
    EngineInv (run w ops) := by
  induction ops generalizing w with
  | nil => exact hInv
  | cons op rest ih => exact ih (execOp w op) (EngineInv_execOp w op hInv)

theorem EngineInv.sessionExclusive (w : World) (hInv : EngineInv w) :
    sessionExclusive w := by
  intro i j ni nj hi hj hpi hpj
  obtain ⟨_, hl, hr⟩ := hInv
  have h1 : ni.gen = w.curGen := hr i ni (hl i ni hi hpi) hi
  have h2 : nj.gen = w.curGen := hr j nj (hl j nj hj hpj) hj
  rw [h1, h2]

/-! ## Claim C8 (confirmed) -/

/-- C8: `schedulePlayback` tears the previous session down (stop +
disconnect of both handles) before creating any node — in the model this is
the definition of `schedulePlayback`, which applies `stopWorld` first — and
consequently, after any sequence of `schedulePlayback`, `stop` and natural
finish events starting from the fresh engine, any two nodes that are still
playing belong to the same `schedulePlayback` generation: handles of two
different sessions never coexist. -/
theorem run_sessionExclusive (ops : List EngineOp) :
    sessionExclusive (run initialWorld ops) :=
  EngineInv.sessionExclusive _ (EngineInv_run ops initialWorld EngineInv_initial)

/-! ## Claim C4 (corrected) -/

theorem toInt16List_length : ∀ bytes : List ℕ,
    (toInt16List bytes).length = bytes.length / 2
  | [] => rfl
  | [_] => by simp [toInt16List]
  | a :: b :: rest => by
    show (toInt16List rest).length + 1 = (rest.length + 1 + 1) / 2
    rw [toInt16List_length rest]
    omega

/-- C4 counterexample: the one-byte input `[0]` is well typed, and its
length is not a multiple of `2 * channels`, so the claim demands a
truncated buffer; `decodeRawPCM` instead fails, because
`new Int16Array(arrayBuffer)` throws a `RangeError` on an odd byte
length. -/
theorem decodeRawPCM_odd_length_fails :
    decodeRawPCM [0] 24000 1
      = .error "RangeError: byte length of Int16Array should be a multiple of 2" ∧
    ∀ b, decodeRawPCM [0] 24000 1 ≠ .ok b := by
  have h : decodeRawPCM [0] 24000 1
      = .error "RangeError: byte length of Int16Array should be a multiple of 2" := rfl
  refine ⟨h, fun b hb => ?_⟩
  rw [h] at hb
  cases hb

/-- C4 amended: `decodeRawPCM` fails exactly when the byte length is odd
(`Int16Array` construction throws a `RangeError`) or when the bytes contain
no complete frame (`createBuffer` with a zero length throws a
`NotSupportedError`); on every other input whose length is not a multiple
of `2 * channels` it truncates to the last complete frame
(`⌊⌊bytes/2⌋ / channels⌋` frames) and returns a buffer with the requested
channel count and sample rate; there are no other error paths. -/
theorem decodeRawPCM_total_rule (bytes : List ℕ) (rate ch : ℕ) :
    ((∃ b, decodeRawPCM bytes rate ch = .ok b) ↔
      (bytes.length % 2 = 0 ∧ 1 ≤ bytes.length / 2 / ch)) ∧
    (∀ b, decodeRawPCM bytes rate ch = .ok b →
      b.length = bytes.length / 2 / ch ∧ b.numberOfChannels = ch ∧
        b.sampleRate = rate) := by
  constructor
  · constructor
    · rintro ⟨b, hb⟩
      unfold decodeRawPCM at hb
      by_cases h1 : bytes.length % 2 ≠ 0
      · rw [if_pos h1] at hb
        cases hb
      · rw [if_neg h1] at hb
        by_cases h2 : (toInt16List bytes).length / ch = 0
        · rw [if_pos h2] at hb
          cases hb
        · rw [toInt16List_length] at h2
          exact ⟨not_not.mp h1, Nat.pos_iff_ne_zero.mpr h2⟩
    · rintro ⟨h1, h2⟩
      unfold decodeRawPCM
      rw [if_neg (by omega),
        if_neg (by rw [toInt16List_length]; exact Nat.pos_iff_ne_zero.mp h2)]
      exact ⟨_, rfl⟩
  · intro b hb
    unfold decodeRawPCM at hb
    by_cases h1 : bytes.length % 2 ≠ 0
    · rw [if_pos h1] at hb
      cases hb
    · rw [if_neg h1] at hb
      by_cases h2 : (toInt16List bytes).length / ch = 0
      · rw [if_pos h2] at hb
        cases hb
      · rw [if_neg h2] at hb
        injection hb with he
        rw [← he]
        refine ⟨by rw [toInt16List_length], ?_, rfl⟩
        show ((List.range ch).map _).length = ch
        rw [List.length_map, List.length_range]

/-- C4 amended witness: six bytes at two channels hold three samples, not a
multiple of `2 * 2`; the decoder succeeds and truncates to one frame. -/
theorem decodeRawPCM_total_rule_witness :
    (∃ b, decodeRawPCM [0, 0, 0, 0, 0, 0] 24000 2 = .ok b) ∧
    ∀ b, decodeRawPCM [0, 0, 0, 0, 0, 0] 24000 2 = .ok b →
      b.length = 1 ∧ b.numberOfChannels = 2 ∧ b.sampleRate = 24000 := by
  have h := decodeRawPCM_total_rule [0, 0, 0, 0, 0, 0] 24000 2
  refine ⟨h.1.mpr (by norm_num), fun b hb => ?_⟩
  have h2 := h.2 b hb
  norm_num at h2
  exact h2

/-! ## Claim C5 (confirmed) -/

/-- C5: given that present sources have positive duration and the voice
placement is non-negative (as the data model requires), the offline render
fails — with the `"Nothing to render"` error, producing no render — if and
only if both sources are absent. -/
theorem renderToBlob_empty_mix (mb vb : Option AudioBuffer) (vst : ℚ)
    (hm : ∀ b, mb = some b → 0 < b.duration)
    (hv : ∀ b, vb = some b → 0 < b.duration)
    (hvst : 0 ≤ vst) :
    ((∃ e, renderToBlob mb vb vst = .error e) ↔ (mb = none ∧ vb = none)) ∧
    renderToBlob none none vst = .error "Nothing to render" := by
  refine ⟨?_, by simp [renderToBlob]⟩
  rcases mb with _ | b1 <;> rcases vb with _ | b2
  · simp [renderToBlob]
  · have hd : (0 : ℚ) < b2.duration := hv b2 rfl
    have hne : max (0 : ℚ) (vst + b2.duration) ≠ 0 := by
      have : (0 : ℚ) < vst + b2.duration := by linarith
      have := lt_max_of_lt_right (b := (0 : ℚ)) this
      linarith [this]
    simp [renderToBlob, hne]
  · have hd : (0 : ℚ) < b1.duration := hm b1 rfl
    have hne : max (0 : ℚ) b1.duration ≠ 0 := by
      have := lt_max_of_lt_right (b := (0 : ℚ)) hd
      linarith [this]
    simp [renderToBlob, hne]
  · have hd : (0 : ℚ) < b1.duration := hm b1 rfl
    have h1 : (0 : ℚ) < max 0 b1.duration := lt_max_of_lt_right hd
    have hne : max (max (0 : ℚ) b1.duration) (vst + b2.duration) ≠ 0 := by
      have := lt_max_of_lt_left (c := vst + b2.duration) h1
      linarith [this]
    simp [renderToBlob, hne]

/-- C5 witness: with both sources absent the renderer fails. -/
theorem renderToBlob_empty_mix_witness :
    ∃ e, renderToBlob none none 0 = .error e :=
  ((renderToBlob_empty_mix none none 0 (fun _ h => by cases h)
    (fun _ h => by cases h) le_rfl).1).mpr ⟨rfl, rfl⟩

/-! ## Claim C6 (confirmed) -/

/-- C6: with at least one source present (present sources having positive
duration and a non-negative voice placement), the offline render succeeds
and configures a stereo (2-channel), 44100 Hz context of
`totalDuration * 44100` frames, where `totalDuration` is the maximum of the
background duration and `voiceStartTime + voiceDuration` (absent terms
defaulting to 0); the background source is scheduled at timeline 0 and the
voice source at `voiceStartTime`, each with no read-offset and no duration
trim, i.e. in full. -/
theorem renderToBlob_mix_rule (mb vb : Option AudioBuffer) (vst : ℚ)
    (hm : ∀ b, mb = some b → 0 < b.duration)
    (hv : ∀ b, vb = some b → 0 < b.duration)
    (hvst : 0 ≤ vst)
    (hsome : mb ≠ none ∨ vb ≠ none) :
    ∃ plan, renderToBlob mb vb vst = .ok plan ∧
      plan.numberOfChannels = 2 ∧
      plan.sampleRate = 44100 ∧
      plan.lengthParam =
        (max (match mb with | some b => b.duration | none => 0)
             (match vb with | some b => vst + b.duration | none => 0)) * 44100 ∧
      plan.sources =
        (match mb with | some b => [⟨b, 0, 0, none⟩] | none => []) ++
        (match vb with | some b => [⟨b, vst, 0, none⟩] | none => []) := by
  rcases mb with _ | b1 <;> rcases vb with _ | b2
  · rcases hsome with h | h <;> exact absurd rfl h
  · have hd : (0 : ℚ) < b2.duration := hv b2 rfl
    have hne : max (0 : ℚ) (vst + b2.duration) ≠ 0 := by
      have h0 : (0 : ℚ) < vst + b2.duration := by linarith
      have := lt_max_of_lt_right (b := (0 : ℚ)) h0
      linarith [this]
    refine ⟨⟨2, (max 0 (vst + b2.duration)) * 44100, 44100, [⟨b2, vst, 0, none⟩]⟩,
      by simp [renderToBlob, hne], rfl, rfl, ?_, ?_⟩
    · dsimp only
    · simp
  · have hd : (0 : ℚ) < b1.duration := hm b1 rfl
    have hne : max (0 : ℚ) b1.duration ≠ 0 := by
      have := lt_max_of_lt_right (b := (0 : ℚ)) hd
      linarith [this]
    refine ⟨⟨2, (max 0 b1.duration) * 44100, 44100, [⟨b1, 0, 0, none⟩]⟩,
      by simp [renderToBlob, hne], rfl, rfl, ?_, ?_⟩
    · dsimp only
      rw [max_comm (0 : ℚ) b1.duration]
    · simp
  · have hd : (0 : ℚ) < b1.duration := hm b1 rfl
    have h1 : (0 : ℚ) < max 0 b1.duration := lt_max_of_lt_right hd
    have hne : max (max (0 : ℚ) b1.duration) (vst + b2.duration) ≠ 0 := by
      have := lt_max_of_lt_left (c := vst + b2.duration) h1
      linarith [this]
    refine ⟨⟨2, (max (max 0 b1.duration) (vst + b2.duration)) * 44100, 44100,
        [⟨b1, 0, 0, none⟩, ⟨b2, vst, 0, none⟩]⟩,
      by simp [renderToBlob, hne], rfl, rfl, ?_, ?_⟩
    · dsimp only
      rw [max_eq_right hd.le]
    · simp

/-- C6 witness: rendering the 5-second background alone configures a
stereo 44100 Hz context of `5 * 44100` frames with the single source at
timeline 0, untrimmed. -/
theorem renderToBlob_mix_rule_witness :
    ∃ plan, renderToBlob (some bgFive) none 0 = .ok plan ∧
      plan.numberOfChannels = 2 ∧
      plan.sampleRate = 44100 ∧
      plan.lengthParam = 5 * 44100 ∧
      plan.sources = [⟨bgFive, 0, 0, none⟩] := by
  obtain ⟨plan, h1, h2, h3, h4, h5⟩ := renderToBlob_mix_rule (some bgFive) none 0
    (fun b h => by
      injection h with h2
      rw [← h2]
      norm_num [AudioBuffer.duration, bgFive])
    (fun b h => by cases h) le_rfl (Or.inl (by simp))
  refine ⟨plan, h1, h2, h3, ?_, ?_⟩
  · rw [h4]
    norm_num [AudioBuffer.duration, bgFive]
  · rw [h5]
    simp
